import Mathlib

/-!
Verification of the credential-lifecycle and attachment-delivery subsystem of
the Google Calendar / Gmail / Tasks tool repository.

Each Lean definition below is a shallow embedding of the corresponding Python
function, translated directly from the source files:
  - `src/gmail/email_details_tool.py` (recursive MIME body extraction, body selection)
  - `src/gmail/gmail_tool.py`         (top-level part scan, body selection, `get_latest_emails`)
  - `src/gmail/attachment_tool.py`    (`_get_credentials`, `_start_file_server`,
                                       filename collision resolution, attachment loop)
  - `src/calendar_agent/delete_event_tool.py` (`delete_event` error handling)

External effects (Google API calls, the OAuth library, BeautifulSoup, the OS
socket layer) are modelled as explicit parameters recording their outcomes, so
the Lean functions are pure transcriptions of the Python control flow.
-/

namespace GoogleTools

/-- A node of the Gmail message-part tree, as delivered by the API:
a dict with optional keys `mimeType`, `body.data` (base64url body bytes,
modelled post-decoding as a `String`), `body.attachmentId`, `filename`,
`body.size`, and an optional `parts` list (absent key modelled as `none`). -/
inductive MessagePart where
  | mk (mimeType : Option String) (bodyData : Option String)
       (attachmentId : Option String) (filename : Option String)
       (size : Nat) (parts : Option (List MessagePart))
  deriving Repr

namespace MessagePart

def mimeType : MessagePart → Option String
  | .mk mt _ _ _ _ _ => mt

def bodyData : MessagePart → Option String
  | .mk _ bd _ _ _ _ => bd

def parts : MessagePart → Option (List MessagePart)
  | .mk _ _ _ _ _ ps => ps

end MessagePart

/-- One step of the body capture of `extract_body_recursive`
(`email_details_tool.py` lines 85-89): on a `text/plain` part with inline
`data`, the plain accumulator is ASSIGNED (overwritten); likewise for
`text/html`.  The pair is `(email_body_plain, email_body_html)`. -/
def captureStep (mt : Option String) (bd : Option String)
    (st : String × String) : String × String :=
  match mt, bd with
  | some m, some d =>
    if m = "text/plain" then (d, st.2)
    else if m = "text/html" then (st.1, d)
    else st
  | _, _ => st

mutual

/-- `extract_body_recursive` from `email_details_tool.py` (lines 80-94):
pre-order walk over the part tree, mutating the two nonlocal accumulators
`email_body_plain` / `email_body_html` by plain assignment. -/
def extract_body_recursive : MessagePart → String × String → String × String
  | .mk mt bd _ _ _ ps, st =>
    let st1 := captureStep mt bd st
    match ps with
    | some l => extractBodyList l st1
    | none => st1

/-- The `for part in payload['parts']` loop inside `extract_body_recursive`. -/
def extractBodyList : List MessagePart → String × String → String × String
  | [], st => st
  | p :: rest, st => extractBodyList rest (extract_body_recursive p st)

end

mutual

/-- Pre-order listing of the nodes of a part tree (node first, then its
`parts` children in order).  Specification-side helper, used to state which
occurrence of each body kind the walker captures. -/
def preorderParts : MessagePart → List MessagePart
  | .mk mt bd aid fn sz ps =>
    .mk mt bd aid fn sz ps ::
      (match ps with
       | some l => preorderList l
       | none => [])

def preorderList : List MessagePart → List MessagePart
  | [] => []
  | p :: rest => preorderParts p ++ preorderList rest

end

/-- The inline plain-text payload of a node, when it has one. -/
def plainData (p : MessagePart) : Option String :=
  match p.mimeType, p.bodyData with
  | some m, some d => if m = "text/plain" then some d else none
  | _, _ => none

/-- The inline HTML payload of a node, when it has one. -/
def htmlData (p : MessagePart) : Option String :=
  match p.mimeType, p.bodyData with
  | some m, some d => if m = "text/html" then some d else none
  | _, _ => none

/-- The body value captured after scanning a node list when the accumulator
starts at `init`: the payload of the LAST node (in the given order) selected
by `f`, or `init` when none is. -/
def lastBody (f : MessagePart → Option String) (init : String)
    (l : List MessagePart) : String :=
  ((l.filterMap f).getLast?).getD init

theorem lastBody_nil (f : MessagePart → Option String) (init : String) :
    lastBody f init [] = init := rfl

theorem lastBody_append (f : MessagePart → Option String) (init : String)
    (xs ys : List MessagePart) :
    lastBody f init (xs ++ ys) = lastBody f (lastBody f init xs) ys := by
  simp only [lastBody, List.filterMap_append, List.getLast?_append]
  cases (ys.filterMap f).getLast? <;> simp [Option.or]

theorem lastBody_single (f : MessagePart → Option String) (init : String)
    (n : MessagePart) : lastBody f init [n] = (f n).getD init := by
  simp only [lastBody, List.filterMap]
  cases f n <;> simp

theorem captureStep_spec (mt bd : Option String) (st : String × String)
    (aid fn : Option String) (sz : Nat) (ps : Option (List MessagePart)) :
    captureStep mt bd st =
      ((plainData (.mk mt bd aid fn sz ps)).getD st.1,
       (htmlData (.mk mt bd aid fn sz ps)).getD st.2) := by
  cases mt with
  | none => rfl
  | some m =>
    cases bd with
    | none => rfl
    | some d =>
      by_cases h1 : m = "text/plain"
      · simp [captureStep, plainData, htmlData, MessagePart.mimeType,
          MessagePart.bodyData, h1]
      · by_cases h2 : m = "text/html" <;>
          simp [captureStep, plainData, htmlData, MessagePart.mimeType,
            MessagePart.bodyData, h1, h2]

mutual

theorem extract_body_recursive_eq (p : MessagePart) (st : String × String) :
    extract_body_recursive p st =
      (lastBody plainData st.1 (preorderParts p),
       lastBody htmlData st.2 (preorderParts p)) := by
  match p with
  | .mk mt bd aid fn sz ps =>
    match ps with
    | none =>
      show captureStep mt bd st = _
      rw [captureStep_spec mt bd st aid fn sz none]
      simp only [preorderParts]
      rw [lastBody_single, lastBody_single]
    | some l =>
      show extractBodyList l (captureStep mt bd st) = _
      rw [extractBodyList_eq l (captureStep mt bd st),
        captureStep_spec mt bd st aid fn sz (some l)]
      simp only [preorderParts]
      have hs : (MessagePart.mk mt bd aid fn sz (some l)) :: preorderList l =
          [MessagePart.mk mt bd aid fn sz (some l)] ++ preorderList l := rfl
      rw [hs, lastBody_append, lastBody_append, lastBody_single, lastBody_single]

theorem extractBodyList_eq (l : List MessagePart) (st : String × String) :
    extractBodyList l st =
      (lastBody plainData st.1 (preorderList l),
       lastBody htmlData st.2 (preorderList l)) := by
  match l with
  | [] => simp [extractBodyList, preorderList, lastBody_nil]
  | p :: rest =>
    show extractBodyList rest (extract_body_recursive p st) = _
    rw [extractBodyList_eq rest (extract_body_recursive p st),
      extract_body_recursive_eq p st]
    simp only [preorderList]
    rw [lastBody_append, lastBody_append]

end

/-- A concrete MIME tree: the root itself is a `text/plain` part with bytes
`"A"`, and a nested child at depth 3 is a second `text/plain` part with bytes
`"B"`. -/
def treeTwoPlain : MessagePart :=
  .mk (some "text/plain") (some "A") none none 1
    (some [ .mk (some "multipart/alternative") none none none 0
              (some [ .mk (some "text/plain") (some "B") none none 1 none ]) ])

/-- C1 counterexample: on `treeTwoPlain` the first `text/plain` occurrence in
pre-order carries `"A"`, yet the walker returns `"B"` as `plain_body` — the
later, deeper occurrence OVERWRITES the earlier capture, so "the first
occurrence of each kind wins" is false on the code. -/
theorem claim_C1_counterexample :
    ((preorderParts treeTwoPlain).filterMap plainData).head? = some "A" ∧
    (extract_body_recursive treeTwoPlain ("", "")).1 = "B" ∧ "B" ≠ "A" := by
  refine ⟨rfl, rfl, ?_⟩
  decide

/-- C1 (amended): the body extractor walks the tree in pre-order, and for each
kind the LAST occurrence wins: starting from accumulators `(a, b)`, it returns
the inline payload of the last `text/plain` node in pre-order (or `a` if there
is none) paired with the payload of the last `text/html` node in pre-order (or
`b` if there is none).  Later, deeper occurrences of a kind overwrite earlier
captures rather than being ignored. -/
theorem claim_C1_amended (p : MessagePart) (a b : String) :
    extract_body_recursive p (a, b) =
      (((preorderParts p).filterMap plainData).getLast?.getD a,
       ((preorderParts p).filterMap htmlData).getLast?.getD b) :=
  extract_body_recursive_eq p (a, b)

/-! ### Body selection (`email_details_tool.py` lines 99-106, `gmail_tool.py` lines 78-97)

`htmlToText` stands for the external HTML-to-text normalization pipeline
(`BeautifulSoup(...).get_text()`, blank-line collapsing, trimming); it is kept
abstract as a function parameter. -/

/-- Lines 99-106 of `email_details_tool.py`: run the recursive extractor, then
prefer the HTML body (converted to readable text) when it is truthy
(non-empty), falling back to the plain body, else the empty string. -/
def body_text_of (htmlToText : String → String) (p : MessagePart) : String :=
  let eb := extract_body_recursive p ("", "")
  if eb.2 ≠ "" then htmlToText eb.2
  else if eb.1 ≠ "" then eb.1
  else ""

/-- The `for part in parts` loop of `get_latest_emails` (`gmail_tool.py` lines
81-87): scans only the TOP-LEVEL parts, assigning (overwriting)
`plain_text_body` / `html_body`, both initially `None`. -/
def scanTopLevel (parts : List MessagePart) : Option String × Option String :=
  parts.foldl
    (fun acc part =>
      match part.mimeType, part.bodyData with
      | some m, some d =>
        if m = "text/plain" then (some d, acc.2)
        else if m = "text/html" then (acc.1, some d)
        else acc
      | _, _ => acc)
    (none, none)

/-- Lines 78-97 of `gmail_tool.py`: the `email_body` computation of
`get_latest_emails`.  If the payload has a `parts` key, scan the top-level
parts and prefer the truthy HTML body (normalized) over the plain body;
otherwise fall back to the payload's own inline `body.data`. -/
def email_body_of (htmlToText : String → String) (payload : MessagePart) : String :=
  match payload.parts with
  | some parts =>
    let pt := (scanTopLevel parts).1
    let ht := (scanTopLevel parts).2
    if ht.getD "" ≠ "" then htmlToText (ht.getD "")
    else if pt.getD "" ≠ "" then pt.getD ""
    else ""
  | none =>
    match payload.bodyData with
    | some d => d
    | none => ""

/-- C10: in both body pipelines, whenever a (truthy) HTML body was captured,
the caller-facing body is derived from the HTML body via the normalization
function, and the captured plain-text body is ignored; the plain-text body is
used only when no (truthy) HTML body was captured. -/
theorem claim_C10_html_preferred (htmlToText : String → String)
    (p : MessagePart) (parts : List MessagePart) :
    ((extract_body_recursive p ("", "")).2 ≠ "" →
      body_text_of htmlToText p = htmlToText (extract_body_recursive p ("", "")).2) ∧
    ((extract_body_recursive p ("", "")).2 = "" →
      (extract_body_recursive p ("", "")).1 ≠ "" →
      body_text_of htmlToText p = (extract_body_recursive p ("", "")).1) ∧
    ((scanTopLevel parts).2.getD "" ≠ "" →
      email_body_of htmlToText (.mk none none none none 0 (some parts)) =
        htmlToText ((scanTopLevel parts).2.getD "")) ∧
    ((scanTopLevel parts).2.getD "" = "" →
      (scanTopLevel parts).1.getD "" ≠ "" →
      email_body_of htmlToText (.mk none none none none 0 (some parts)) =
        (scanTopLevel parts).1.getD "") := by
  refine ⟨fun h2 => ?_, fun h2 h1 => ?_, fun h2 => ?_, fun h2 h1 => ?_⟩
  · simp only [body_text_of]
    rw [if_pos h2]
  · simp only [body_text_of]
    rw [if_neg (by simp [h2]), if_pos h1]
  · simp only [email_body_of, MessagePart.parts]
    rw [if_pos h2]
  · simp only [email_body_of, MessagePart.parts]
    rw [if_neg (by simp [h2]), if_pos h1]

/-- Witness for C10 at a concrete input: a tree with a plain part `"p"` and an
HTML part `"<b>h</b>"`; the body comes from the HTML part. -/
theorem claim_C10_witness :
    (extract_body_recursive
        (.mk (some "multipart/alternative") none none none 0
          (some [ .mk (some "text/plain") (some "p") none none 1 none,
                  .mk (some "text/html") (some "<b>h</b>") none none 8 none ]))
        ("", "")).2 ≠ "" ∧
    body_text_of (fun s => s ++ "!")
        (.mk (some "multipart/alternative") none none none 0
          (some [ .mk (some "text/plain") (some "p") none none 1 none,
                  .mk (some "text/html") (some "<b>h</b>") none none 8 none ])) =
      "<b>h</b>!" := by
  have h := claim_C10_html_preferred (fun s => s ++ "!")
    (.mk (some "multipart/alternative") none none none 0
      (some [ .mk (some "text/plain") (some "p") none none 1 none,
              .mk (some "text/html") (some "<b>h</b>") none none 8 none ])) []
  exact ⟨by decide, by rw [h.1 (by decide)]; rfl⟩

/-! ### Credential acquisition (`_get_credentials`, `attachment_tool.py` lines 24-54;
the same function appears verbatim, up to the token file name and scope list,
in every other tool module, e.g. `delete_event_tool.py` lines 12-42 and
`delete_task_tool.py` lines 12-42).

The google-auth `Credentials` object is modelled by its three attributes the
code reads: `token`, `refresh_token`, `expired`; its `valid` property is
`token is not None and not expired` (google-auth semantics). The outcomes of
the external effects — loading `token.json`, the network refresh, the
interactive browser flow — are inputs recorded in `AuthEnv`. -/

/-- The attributes of a google-auth `Credentials` object that
`_get_credentials` reads. -/
structure Creds where
  token : Option String
  refreshToken : Option String
  expired : Bool
  deriving Repr, DecidableEq

/-- google-auth: `valid` is true iff a token is present and it is unexpired. -/
def Creds.valid (c : Creds) : Bool :=
  c.token.isSome && !c.expired

/-- Python truthiness of `creds.refresh_token` (`None` and `""` are falsy). -/
def Creds.refreshTruthy (c : Creds) : Bool :=
  match c.refreshToken with
  | some s => !(s == "")
  | none => false

/-- Recorded outcomes of the external effects `_get_credentials` can trigger:
whether `token.json` exists, what deserializing it yields, what
`creds.refresh(Request())` yields, and what the interactive
`flow.run_local_server(...)` yields (`.error` = the call raised). -/
structure AuthEnv where
  tokenFileExists : Bool
  loadResult : Except String Creds
  refreshResult : Except String Creds
  flowResult : Except String Creds

def exceptOk {α : Type} : Except String α → Bool
  | .ok _ => true
  | .error _ => false

/-- Lines 26-32: `creds` after the `os.path.exists` / `from_authorized_user_file`
step — `none` when the file is absent or deserialization raised. -/
def credsLoaded (env : AuthEnv) : Option Creds :=
  if env.tokenFileExists then
    match env.loadResult with
    | .ok c => some c
    | .error _ => none
  else none

/-- What one `_get_credentials` call produced: the returned credentials,
what (if anything) was written to the token file, and which external
network effects ran. -/
structure AcquireOutcome where
  creds : Creds
  written : Option Creds
  refreshCalled : Bool
  flowCalled : Bool
  deriving Repr, DecidableEq

/-- `_get_credentials` (`attachment_tool.py` lines 24-54).  Mirrors the Python
control flow: load (failures → `None`); if no creds or invalid: refresh when
expired with a truthy refresh token (failure → `None`); if still `None`, run
the interactive flow (failure propagates); then write `token.json` with the
final creds; return. -/
def get_credentials (env : AuthEnv) : Except String AcquireOutcome :=
  match credsLoaded env with
  | some c =>
    if c.valid then
      .ok ⟨c, none, false, false⟩
    else if c.expired && c.refreshTruthy then
      match env.refreshResult with
      | .ok c2 => .ok ⟨c2, some c2, true, false⟩
      | .error _ =>
        match env.flowResult with
        | .ok c3 => .ok ⟨c3, some c3, true, true⟩
        | .error e => .error e
    else
      .ok ⟨c, some c, false, false⟩
  | none =>
    match env.flowResult with
    | .ok c3 => .ok ⟨c3, some c3, false, true⟩
    | .error e => .error e

/-- The configurations in which control reaches the interactive flow: no
usable loaded record (absent/corrupt file), or an invalid record whose
refresh was attempted and failed. -/
def flowNeeded (env : AuthEnv) : Bool :=
  match credsLoaded env with
  | none => true
  | some c => !c.valid && (c.expired && c.refreshTruthy) && !(exceptOk env.refreshResult)

/-- C5: (a) `_get_credentials` succeeds iff the interactive flow is not
reached or it succeeds — so a missing token file, a deserialization failure,
and a refresh failure are each non-fatal, and the call fails only when the
interactive authorization flow itself fails; (b) a deserialization failure is
treated identically to an absent token file. -/
theorem claim_C5_nonfatal_fallthrough (env : AuthEnv) (e : String) :
    exceptOk (get_credentials env) = (!flowNeeded env || exceptOk env.flowResult) ∧
    get_credentials { env with loadResult := .error e } =
      get_credentials { env with tokenFileExists := false } := by
  constructor
  · match h : credsLoaded env with
    | none =>
      simp only [get_credentials, flowNeeded, h]
      cases env.flowResult <;> rfl
    | some c =>
      simp only [get_credentials, flowNeeded, h]
      by_cases hv : c.valid = true
      · simp [hv, exceptOk]
      · rw [Bool.not_eq_true] at hv
        by_cases hr : (c.expired && c.refreshTruthy) = true
        · simp only [hv, hr, if_false, if_true, Bool.not_false, Bool.true_and]
          cases hre : env.refreshResult with
          | ok c2 => simp [exceptOk]
          | error e2 =>
            cases env.flowResult <;> simp [exceptOk]
        · rw [Bool.not_eq_true] at hr
          simp [hv, hr, exceptOk]
  · have h1 : credsLoaded { env with loadResult := .error e } = none := by
      simp only [credsLoaded]
      cases env.tokenFileExists <;> rfl
    have h2 : credsLoaded { env with tokenFileExists := false } = none := rfl
    simp only [get_credentials, h1, h2]

/-- C6: every branch of `_get_credentials` that obtained its record from the
refresh call or from the interactive flow writes exactly that record to the
token file before returning it. -/
theorem claim_C6_persist_before_return (env : AuthEnv) (r : AcquireOutcome)
    (hok : get_credentials env = .ok r)
    (hnew : r.refreshCalled = true ∨ r.flowCalled = true) :
    r.written = some r.creds := by
  unfold get_credentials at hok
  revert hok
  match h : credsLoaded env with
  | none =>
    cases env.flowResult with
    | ok c3 => intro hok; cases hok; rfl
    | error e => intro hok; cases hok
  | some c =>
    by_cases hv : c.valid = true
    · simp only [hv, if_true]
      intro hok
      cases hok
      rcases hnew with hnew | hnew <;> simp at hnew
    · rw [Bool.not_eq_true] at hv
      simp only [hv, Bool.false_eq_true, if_false]
      by_cases hr : (c.expired && c.refreshTruthy) = true
      · simp only [hr, if_true]
        cases env.refreshResult with
        | ok c2 => intro hok; cases hok; rfl
        | error e2 =>
          cases env.flowResult with
          | ok c3 => intro hok; cases hok; rfl
          | error e3 => intro hok; cases hok
      · rw [Bool.not_eq_true] at hr
        simp only [hr, Bool.false_eq_true, if_false]
        intro hok
        cases hok
        rcases hnew with hnew | hnew <;> simp at hnew

/-- Witness for C6: with no token file and a successful interactive flow, the
returned record was first written to the token file. -/
theorem claim_C6_witness :
    get_credentials ⟨false, .error "absent", .error "n/a", .ok ⟨some "t", some "r", false⟩⟩ =
      .ok ⟨⟨some "t", some "r", false⟩, some ⟨some "t", some "r", false⟩, false, true⟩ ∧
    (⟨⟨some "t", some "r", false⟩, some ⟨some "t", some "r", false⟩, false, true⟩ :
        AcquireOutcome).written =
      some (⟨some "t", some "r", false⟩ : Creds) := by
  refine ⟨rfl, ?_⟩
  exact claim_C6_persist_before_return
    ⟨false, .error "absent", .error "n/a", .ok ⟨some "t", some "r", false⟩⟩
    ⟨⟨some "t", some "r", false⟩, some ⟨some "t", some "r", false⟩, false, true⟩
    rfl (Or.inr rfl)

/-- C9: when the token file holds a record that deserializes and is valid
(has a token and is unexpired), `_get_credentials` returns exactly that
record, writes nothing, and triggers neither the refresh call nor the
interactive flow — the outcome is independent of the refresh/flow outcomes,
so a repeated call under the same file state returns the identical record
with zero network calls. -/
theorem claim_C9_cached_unexpired (env : AuthEnv) (c : Creds)
    (hex : env.tokenFileExists = true)
    (hload : env.loadResult = .ok c)
    (hvalid : c.valid = true) :
    get_credentials env = .ok ⟨c, none, false, false⟩ := by
  have h : credsLoaded env = some c := by
    simp [credsLoaded, hex, hload]
  simp [get_credentials, h, hvalid]

/-- Witness for C9 at a concrete environment: an unexpired record with a
token is returned unchanged, un-rewritten, with no network effects. -/
theorem claim_C9_witness :
    (⟨some "tok", some "ref", false⟩ : Creds).valid = true ∧
    get_credentials ⟨true, .ok ⟨some "tok", some "ref", false⟩,
        .error "refresh fails", .error "flow fails"⟩ =
      .ok ⟨⟨some "tok", some "ref", false⟩, none, false, false⟩ := by
  refine ⟨by decide, ?_⟩
  exact claim_C9_cached_unexpired
    ⟨true, .ok ⟨some "tok", some "ref", false⟩, .error "refresh fails", .error "flow fails"⟩
    ⟨some "tok", some "ref", false⟩ rfl rfl (by decide)

/-! ### Attachment delivery server (`attachment_tool.py` lines 16-99)

The module globals `_file_server`, `_file_server_thread`, `_download_path`
and `FILE_SERVER_PORT` are modelled as a `ServerState`; external port
occupancy is an input predicate `busy`.  In addition to the globals, the
state carries the list of every HTTP listener the module has bound: the code
never calls `shutdown()` on a replaced server and its `serve_forever` daemon
thread keeps it alive and bound, so a listener, once started, stays serving
for the process lifetime. -/

/-- Server-module state: all live listeners `(bound port, served root)`,
whether `_file_server`/`_file_server_thread` are set with the thread alive,
`_download_path`, and the mutable `FILE_SERVER_PORT` global (initially 8000). -/
structure ServerState where
  listeners : List (Nat × String)
  running : Bool
  downloadPath : Option String
  fileServerPort : Nat
  deriving Repr, DecidableEq

/-- Module state at import time: no listener, globals unset, base port 8000. -/
def initialServerState : ServerState := ⟨[], false, none, 8000⟩

/-- `_is_port_in_use` (lines 56-59): the local connection attempt succeeds iff
an external process (`busy`) or one of this module's own live listeners is
bound on the port. -/
def is_port_in_use (busy : Nat → Bool) (st : ServerState) (port : Nat) : Bool :=
  busy port || st.listeners.any (fun l => l.1 == port)

/-- The `while _is_port_in_use(port) and port < max_port: port += 1` loop of
lines 73-74; `fuel` is the number of candidates left strictly below
`max_port`. -/
def probePort (inUse : Nat → Bool) : Nat → Nat → Nat
  | port, 0 => port
  | port, fuel + 1 => if inUse port then probePort inUse (port + 1) fuel else port

/-- `_start_file_server` (lines 61-99).  Same running root: return the
existing port, touch nothing.  Otherwise probe ports from `FILE_SERVER_PORT`
to `FILE_SERVER_PORT + 10`; if the loop ran off the end, raise; otherwise
bind a NEW `HTTPServer` on the found port (the probe guarantees it is free,
so the `try` succeeds) and overwrite the globals.  Returns the state
afterwards and the served port or the raised error message. -/
def start_file_server (busy : Nat → Bool) (st : ServerState)
    (downloadPath : String) : ServerState × Except String Nat :=
  if st.running && st.downloadPath == some downloadPath then
    (st, .ok st.fileServerPort)
  else
    let port := probePort (is_port_in_use busy st) st.fileServerPort 10
    if st.fileServerPort + 10 ≤ port then
      (st, .error ("Could not find available port between " ++
        toString st.fileServerPort ++ " and " ++ toString (st.fileServerPort + 10)))
    else
      (⟨st.listeners ++ [(port, downloadPath)], true, some downloadPath, port⟩,
       .ok port)

theorem start_file_server_reuse (busy : Nat → Bool) (st : ServerState)
    (path : String)
    (h : (st.running && (st.downloadPath == some path)) = true) :
    start_file_server busy st path = (st, .ok st.fileServerPort) := by
  unfold start_file_server
  rw [h]
  simp

theorem start_file_server_go (busy : Nat → Bool) (st : ServerState)
    (path : String)
    (h : (st.running && (st.downloadPath == some path)) = false) :
    start_file_server busy st path =
      (if st.fileServerPort + 10 ≤
          probePort (is_port_in_use busy st) st.fileServerPort 10 then
        (st, .error ("Could not find available port between " ++
          toString st.fileServerPort ++ " and " ++
          toString (st.fileServerPort + 10)))
      else
        (⟨st.listeners ++
            [(probePort (is_port_in_use busy st) st.fileServerPort 10, path)],
          true, some path,
          probePort (is_port_in_use busy st) st.fileServerPort 10⟩,
         .ok (probePort (is_port_in_use busy st) st.fileServerPort 10))) := by
  unfold start_file_server
  rw [h]
  simp

theorem probePort_first (inUse : Nat → Bool) :
    ∀ j port fuel, j ≤ fuel → (∀ k, k < j → inUse (port + k) = true) →
      inUse (port + j) = false → probePort inUse port fuel = port + j := by
  intro j
  induction j with
  | zero =>
    intro port fuel _ _ hfree
    cases fuel with
    | zero => rfl
    | succ f =>
      have h : inUse port = false := by simpa using hfree
      simp [probePort, h]
  | succ m ih =>
    intro port fuel hle hbelow hfree
    cases fuel with
    | zero => exact absurd hle (by omega)
    | succ f =>
      have h0 : inUse port = true := by
        have := hbelow 0 (by omega)
        simpa using this
      have heq : probePort inUse port (f + 1) = probePort inUse (port + 1) f := by
        simp [probePort, h0]
      rw [heq]
      have := ih (port + 1) f (by omega)
        (fun k hk => by
          have := hbelow (k + 1) (by omega)
          simpa [Nat.add_assoc, Nat.add_comm 1 k] using this)
        (by simpa [Nat.add_assoc, Nat.add_comm 1 m] using hfree)
      omega

theorem probePort_exhausted (inUse : Nat → Bool) :
    ∀ fuel port, (∀ k, k < fuel → inUse (port + k) = true) →
      probePort inUse port fuel = port + fuel := by
  intro fuel
  induction fuel with
  | zero => intro port _; rfl
  | succ f ih =>
    intro port hall
    have h0 : inUse port = true := by simpa using hall 0 (by omega)
    have := ih (port + 1)
      (fun k hk => by
        have := hall (k + 1) (by omega)
        simpa [Nat.add_assoc, Nat.add_comm 1 k] using this)
    simp only [probePort, h0, if_true]
    omega

/-- C4: port negotiation from the fresh module state.  (a) In general, if the
candidates below `8000 + j` (with `j < 10`) are all occupied and `8000 + j`
is free, the server binds exactly `8000 + j` — so with the base port and the
next two candidates occupied it binds the 4th candidate, `8003`; (b) if all
10 candidates `8000..8009` are occupied, the call fails with the
resource-exhausted `RuntimeError` and binds no listener (the state is
returned unchanged, with no listener added). -/
theorem claim_C4_port_negotiation (busy busyAll : Nat → Bool) (path : String)
    (j : Nat) (hj : j < 10)
    (hbelow : ∀ k, k < j → busy (8000 + k) = true)
    (hfree : busy (8000 + j) = false)
    (hall : ∀ k, k < 10 → busyAll (8000 + k) = true) :
    start_file_server busy initialServerState path =
      (⟨[(8000 + j, path)], true, some path, 8000 + j⟩, .ok (8000 + j)) ∧
    start_file_server busyAll initialServerState path =
      (initialServerState,
       .error "Could not find available port between 8000 and 8010") := by
  have hinit : ∀ (b : Nat → Bool) p,
      is_port_in_use b initialServerState p = b p := by
    intro b p
    simp [is_port_in_use, initialServerState]
  have hfp : initialServerState.fileServerPort = 8000 := rfl
  have hcond : (initialServerState.running &&
      (initialServerState.downloadPath == some path)) = false := rfl
  constructor
  · rw [start_file_server_go busy initialServerState path hcond]
    have hprobe : probePort (is_port_in_use busy initialServerState)
        initialServerState.fileServerPort 10 = 8000 + j := by
      rw [hfp]
      apply probePort_first _ j 8000 10 (by omega)
      · intro k hk; rw [hinit]; exact hbelow k hk
      · rw [hinit]; exact hfree
    rw [hprobe, hfp]
    rw [if_neg (by omega)]
    rfl
  · rw [start_file_server_go busyAll initialServerState path hcond]
    have hprobe : probePort (is_port_in_use busyAll initialServerState)
        initialServerState.fileServerPort 10 = 8010 := by
      rw [hfp]
      have := probePort_exhausted (is_port_in_use busyAll initialServerState) 10 8000
        (fun k hk => by rw [hinit]; exact hall k hk)
      omega
    rw [hprobe, hfp]
    rw [if_pos (by omega)]
    rfl

/-- Witness for C4: with exactly `8000`, `8001`, `8002` occupied the server
binds `8003`; with `8000..8009` all occupied it raises and the state is
unchanged. -/
theorem claim_C4_witness :
    start_file_server (fun p => p == 8000 || p == 8001 || p == 8002)
        initialServerState "downloads" =
      (⟨[(8003, "downloads")], true, some "downloads", 8003⟩, .ok 8003) ∧
    start_file_server (fun p => decide (p < 8010)) initialServerState "downloads" =
      (initialServerState,
       .error "Could not find available port between 8000 and 8010") := by
  have h := claim_C4_port_negotiation (fun p => p == 8000 || p == 8001 || p == 8002)
    (fun p => decide (p < 8010)) "downloads" 3 (by omega)
    (by decide) (by decide) (by decide)
  exact h

/-- C2 counterexample: after a first call binds `8000` for root `"rootA"`, a
second call for the DIFFERENT root `"rootB"` does not return the existing
port 8000: it binds a brand-new listener on 8001 and returns 8001, leaving
the old listener alive — two listeners are then bound and serving at once. -/
theorem claim_C2_counterexample :
    start_file_server (fun _ => false) initialServerState "rootA" =
      (⟨[(8000, "rootA")], true, some "rootA", 8000⟩, .ok 8000) ∧
    (start_file_server (fun _ => false)
        ⟨[(8000, "rootA")], true, some "rootA", 8000⟩ "rootB").2 = .ok 8001 ∧
    (8001 ≠ 8000) ∧
    (start_file_server (fun _ => false)
        ⟨[(8000, "rootA")], true, some "rootA", 8000⟩ "rootB").1.listeners =
      [(8000, "rootA"), (8001, "rootB")] := by
  refine ⟨rfl, rfl, by omega, rfl⟩

/-- C2 (amended): if the running handle serves the SAME root, the call is
idempotent — it returns the existing port and starts nothing.  If the
running handle serves a DIFFERENT root, the call does not reuse it: the
probe starts at the current port (occupied by the running listener itself),
so a NEW listener is bound on the next free port and its port is returned;
the old listener is never shut down, so both remain bound — the
at-most-one-live-listener invariant does not hold. -/
theorem claim_C2_amended (busy : Nat → Bool) (q path : String) (st : ServerState) :
    (st.running = true → st.downloadPath = some path →
      start_file_server busy st path = (st, .ok st.fileServerPort)) ∧
    (q ≠ path → st.running = true → st.downloadPath = some q →
      st.listeners = [(st.fileServerPort, q)] →
      busy (st.fileServerPort + 1) = false →
      start_file_server busy st path =
        (⟨[(st.fileServerPort, q), (st.fileServerPort + 1, path)], true,
          some path, st.fileServerPort + 1⟩, .ok (st.fileServerPort + 1))) := by
  constructor
  · intro hrun hpath
    exact start_file_server_reuse busy st path (by rw [hrun, hpath]; simp)
  · intro hq hrun hpath hlist hfree
    have hcond : (st.running && (st.downloadPath == some path)) = false := by
      rw [hpath]
      simp [hq]
    rw [start_file_server_go busy st path hcond]
    have hprobe : probePort (is_port_in_use busy st) st.fileServerPort 10 =
        st.fileServerPort + 1 := by
      apply probePort_first _ 1 st.fileServerPort 10 (by omega)
      · intro k hk
        have hk0 : k = 0 := by omega
        subst hk0
        simp [is_port_in_use, hlist]
      · simp [is_port_in_use, hlist, hfree]
    rw [hprobe]
    rw [if_neg (by omega), hlist]
    rfl

/-- Witness for C2 (amended) at concrete inputs: with the handle running for
`"rootA"` on 8000, a call for `"rootA"` is a no-op returning 8000, while a
call for `"rootB"` binds a second listener on 8001. -/
theorem claim_C2_amended_witness :
    start_file_server (fun _ => false)
        ⟨[(8000, "rootA")], true, some "rootA", 8000⟩ "rootA" =
      (⟨[(8000, "rootA")], true, some "rootA", 8000⟩, .ok 8000) ∧
    start_file_server (fun _ => false)
        ⟨[(8000, "rootA")], true, some "rootA", 8000⟩ "rootB" =
      (⟨[(8000, "rootA"), (8001, "rootB")], true, some "rootB", 8001⟩,
       .ok 8001) := by
  have h1 := claim_C2_amended (fun _ => false) "rootA" "rootA"
    ⟨[(8000, "rootA")], true, some "rootA", 8000⟩
  have h2 := claim_C2_amended (fun _ => false) "rootA" "rootB"
    ⟨[(8000, "rootA")], true, some "rootA", 8000⟩
  exact ⟨h1.1 rfl rfl, h2.2 (by decide) rfl rfl rfl rfl⟩

/-! ### Attachment download: collision resolution and partial failure
(`attachment_tool.py` lines 101-218)

`os.path.exists` over the serving root is modelled by membership in the list
of filenames currently in the directory; writing a file appends its name.
The remote per-attachment fetch (`attachments().get(...).execute()` plus the
base64 decode and the file write, lines 159-183, all inside one `try`) is an
input function returning the decoded bytes or the caught exception text.
`urllib.parse.quote` is kept abstract as a parameter. -/

/-- `os.path.splitext` restricted to bare filenames (no directory
separator): split at the last `.`, except that a name whose characters
before the last dot are all dots (e.g. `".bashrc"`, `"..."`) has no
extension. -/
def splitext (s : String) : String × String :=
  match (s.toList.enum.filter (fun p => p.2 == '.')).getLast?.map (fun p => p.1) with
  | none => (s, "")
  | some d =>
    if (s.toList.take d).any (fun c => c != '.') then
      (⟨s.toList.take d⟩, ⟨s.toList.drop d⟩)
    else (s, "")

/-- The `while os.path.exists(file_path)` collision loop of lines 173-179:
`current` is the candidate filename, `counter` the next suffix number; the
fuel is an upper bound on iterations (the caller passes one more than the
number of files in the directory, which the loop can never exhaust). -/
def resolveFrom (existing : List String) (name ext : String) :
    Nat → String → Nat → String
  | 0, current, _ => current
  | fuel + 1, current, counter =>
    if existing.contains current then
      resolveFrom existing name ext fuel
        (name ++ "_" ++ toString counter ++ ext) (counter + 1)
    else current

/-- Lines 170-179: unique-filename resolution for one attachment against the
current serving-root contents. -/
def resolveFilename (existing : List String) (original : String) : String :=
  resolveFrom existing (splitext original).1 (splitext original).2
    (existing.length + 1) original 1

/-- One attachment descriptor produced by `extract_attachments_recursive`
(lines 130-143). -/
structure AttachmentInfo where
  attachment_id : String
  filename : String
  mime_type : String
  size : Nat
  deriving Repr, DecidableEq

/-- One entry of `downloaded_files` (lines 188-194). -/
structure DownloadedFile where
  filename : String
  original_filename : String
  download_link : String
  file_size : Nat
  mime_type : String
  deriving Repr, DecidableEq

/-- One entry of `failed_downloads` (lines 197-200). -/
structure FailedDownload where
  filename : String
  error : String
  deriving Repr, DecidableEq

/-- The per-attachment `for` loop of `download_email_attachments` (lines
158-200).  `fetch` is the remote fetch + decode + write pipeline for one
attachment (`.error` = the exception caught at line 196); `quote` is
`urllib.parse.quote`; `dirFiles` the filenames currently in the serving
root.  Returns `(downloaded_files, failed_downloads, final directory
contents)`; a successful download appends its resolved filename to the
directory. -/
def download_attachments_loop (fetch : AttachmentInfo → Except String String)
    (quote : String → String) (serverPort : Nat) :
    List AttachmentInfo → List String →
    List DownloadedFile × List FailedDownload × List String
  | [], dirFiles => ([], [], dirFiles)
  | a :: rest, dirFiles =>
    match fetch a with
    | .ok fileData =>
      let fname := resolveFilename dirFiles a.filename
      let entry : DownloadedFile :=
        ⟨fname, a.filename,
         "http://localhost:" ++ toString serverPort ++ "/" ++ quote fname,
         fileData.length, a.mime_type⟩
      let r := download_attachments_loop fetch quote serverPort rest
        (dirFiles ++ [fname])
      (entry :: r.1, r.2.1, r.2.2)
    | .error e =>
      let r := download_attachments_loop fetch quote serverPort rest dirFiles
      (r.1, ⟨a.filename, e⟩ :: r.2.1, r.2.2)

theorem splitext_append (s : String) :
    (splitext s).1 ++ (splitext s).2 = s := by
  unfold splitext
  split
  · exact String.append_empty s
  · split
    · show String.mk (List.take _ s.toList ++ List.drop _ s.toList) = s
      rw [List.take_append_drop]
      rfl
    · exact String.append_empty s

theorem two_mem_length {α : Type} (L : List α) (a b : α)
    (ha : a ∈ L) (hb : b ∈ L) (hab : a ≠ b) : 2 ≤ L.length := by
  induction L with
  | nil => cases ha
  | cons x xs ih =>
    rcases List.mem_cons.mp ha with rfl | ha2
    · rcases List.mem_cons.mp hb with rfl | hb2
      · exact absurd rfl hab
      · have := List.length_pos_of_mem hb2
        simp only [List.length_cons]
        omega
    · have := List.length_pos_of_mem ha2
      simp only [List.length_cons]
      omega

theorem resolveFrom_stop (existing : List String) (name ext : String)
    (fuel : Nat) (current : String) (counter : Nat)
    (h : existing.contains current = false) :
    resolveFrom existing name ext (fuel + 1) current counter = current := by
  simp only [resolveFrom]
  rw [h]
  simp

theorem resolveFrom_step (existing : List String) (name ext : String)
    (fuel : Nat) (current : String) (counter : Nat)
    (h : existing.contains current = true) :
    resolveFrom existing name ext (fuel + 1) current counter =
      resolveFrom existing name ext fuel
        (name ++ "_" ++ toString counter ++ ext) (counter + 1) := by
  simp only [resolveFrom]
  rw [h]
  simp

/-- A suffixed collision candidate is always a different (longer) string than
the original `name ++ ext`. -/
theorem candidate_ne (name ext orig : String) (c : Nat)
    (h : name ++ ext = orig) :
    orig ≠ name ++ "_" ++ toString c ++ ext := by
  intro he
  have hl := congrArg String.length he
  rw [← h] at hl
  simp only [String.length_append] at hl
  have h1 : ("_" : String).length = 1 := rfl
  rw [h1] at hl
  omega

theorem not_contains_of_not_mem (L : List String) (a : String)
    (h : a ∉ L) : L.contains a = false := by
  rcases hc : L.contains a with _ | _
  · rfl
  · exact absurd (List.elem_iff.mp hc) h

theorem contains_of_mem (L : List String) (a : String)
    (h : a ∈ L) : L.contains a = true := List.elem_iff.mpr h

/-- The final serving-root contents of the download loop extend the starting
contents: files are only added, never removed. -/
theorem download_loop_dir_extends (fetch : AttachmentInfo → Except String String)
    (quote : String → String) (serverPort : Nat) :
    ∀ (atts : List AttachmentInfo) (dirFiles : List String),
      ∃ added, (download_attachments_loop fetch quote serverPort atts dirFiles).2.2 =
        dirFiles ++ added := by
  intro atts
  induction atts with
  | nil =>
    intro dirFiles
    exact ⟨[], by simp [download_attachments_loop]⟩
  | cons a rest ih =>
    intro dirFiles
    cases hf : fetch a with
    | ok fileData =>
      obtain ⟨ad, had⟩ := ih (dirFiles ++ [resolveFilename dirFiles a.filename])
      refine ⟨[resolveFilename dirFiles a.filename] ++ ad, ?_⟩
      simp only [download_attachments_loop, hf]
      rw [had, List.append_assoc]
    | error e =>
      obtain ⟨ad, had⟩ := ih dirFiles
      exact ⟨ad, by simp only [download_attachments_loop, hf]; exact had⟩

/-- C7: filename collision resolution and its use.  With
`splitext orig = (name, ext)`:
(a) no collision keeps the original name;
(b) one collision on `orig` resolves to `name_1ext` when that is free;
(c) collisions on both `orig` and `name_1ext` resolve to `name_2ext` when
that is free — `n` starts at 1 and increments past existing collisions,
with the extension preserved exactly;
(d) in the download loop, a fetched attachment is recorded under the
RESOLVED name: the served URL is built from the quoted resolved name (not
the original), and the resolved name is what lands in the serving root. -/
theorem claim_C7_collision_resolution
    (existing : List String) (orig name ext : String)
    (hsplit : splitext orig = (name, ext))
    (fetch : AttachmentInfo → Except String String) (quote : String → String)
    (serverPort : Nat) (a : AttachmentInfo) (rest : List AttachmentInfo)
    (data : String) :
    (orig ∉ existing → resolveFilename existing orig = orig) ∧
    (orig ∈ existing → (name ++ "_" ++ toString 1 ++ ext) ∉ existing →
      resolveFilename existing orig = name ++ "_" ++ toString 1 ++ ext) ∧
    (orig ∈ existing → (name ++ "_" ++ toString 1 ++ ext) ∈ existing →
      (name ++ "_" ++ toString 2 ++ ext) ∉ existing →
      resolveFilename existing orig = name ++ "_" ++ toString 2 ++ ext) ∧
    (fetch a = .ok data →
      (download_attachments_loop fetch quote serverPort (a :: rest) existing).1.head? =
        some ⟨resolveFilename existing a.filename, a.filename,
          "http://localhost:" ++ toString serverPort ++ "/" ++
            quote (resolveFilename existing a.filename),
          data.length, a.mime_type⟩ ∧
      resolveFilename existing a.filename ∈
        (download_attachments_loop fetch quote serverPort (a :: rest) existing).2.2) := by
  have hres : resolveFilename existing orig =
      resolveFrom existing name ext (existing.length + 1) orig 1 := by
    unfold resolveFilename
    rw [hsplit]
  have horig : name ++ ext = orig := by
    have := splitext_append orig
    rwa [hsplit] at this
  refine ⟨?_, ?_, ?_, ?_⟩
  · intro h0
    rw [hres, resolveFrom_stop existing name ext existing.length orig 1
      (not_contains_of_not_mem existing orig h0)]
  · intro h0 h1
    have hlen : 1 ≤ existing.length := List.length_pos_of_mem h0
    obtain ⟨m, hm⟩ : ∃ m, existing.length = m + 1 := ⟨existing.length - 1, by omega⟩
    rw [hres, hm]
    rw [resolveFrom_step existing name ext (m + 1) orig 1
      (contains_of_mem existing orig h0)]
    exact resolveFrom_stop existing name ext m _ 2
      (not_contains_of_not_mem existing _ h1)
  · intro h0 h1 h2
    have hne : orig ≠ name ++ "_" ++ toString 1 ++ ext := candidate_ne name ext orig 1 horig
    have hlen : 2 ≤ existing.length := two_mem_length existing orig _ h0 h1 hne
    obtain ⟨m, hm⟩ : ∃ m, existing.length = m + 2 := ⟨existing.length - 2, by omega⟩
    rw [hres, hm]
    rw [show m + 2 + 1 = (m + 2) + 1 from rfl,
      resolveFrom_step existing name ext (m + 2) orig 1
        (contains_of_mem existing orig h0),
      show m + 2 = (m + 1) + 1 from rfl,
      resolveFrom_step existing name ext (m + 1) _ 2
        (contains_of_mem existing _ h1)]
    exact resolveFrom_stop existing name ext m _ 3
      (not_contains_of_not_mem existing _ h2)
  · intro hfetch
    constructor
    · simp [download_attachments_loop, hfetch]
    · simp only [download_attachments_loop, hfetch]
      obtain ⟨ad, had⟩ := download_loop_dir_extends fetch quote serverPort rest
        (existing ++ [resolveFilename existing a.filename])
      rw [had]
      simp

/-- Witness for C7 at the spec's concrete example: with `report.pdf` in the
serving root a second `report.pdf` resolves to `report_1.pdf`, and with both
present a third resolves to `report_2.pdf`; the download loop records the
resolved name and builds the URL from it. -/
theorem claim_C7_witness :
    resolveFilename ["report.pdf"] "report.pdf" = "report_1.pdf" ∧
    resolveFilename ["report.pdf", "report_1.pdf"] "report.pdf" = "report_2.pdf" ∧
    (download_attachments_loop (fun _ => .ok "PDFDATA") (fun s => s) 8000
        [⟨"att1", "report.pdf", "application/pdf", 7⟩] ["report.pdf"]).1.head? =
      some ⟨"report_1.pdf", "report.pdf", "http://localhost:8000/report_1.pdf",
        7, "application/pdf"⟩ := by
  have h1 := claim_C7_collision_resolution ["report.pdf"] "report.pdf"
    "report" ".pdf" (by decide)
    (fun _ => .ok "PDFDATA") (fun s => s) 8000
    ⟨"att1", "report.pdf", "application/pdf", 7⟩ [] "PDFDATA"
  have h2 := claim_C7_collision_resolution ["report.pdf", "report_1.pdf"]
    "report.pdf" "report" ".pdf" (by decide)
    (fun _ => .ok "PDFDATA") (fun s => s) 8000
    ⟨"att1", "report.pdf", "application/pdf", 7⟩ [] "PDFDATA"
  refine ⟨?_, ?_, ?_⟩
  · exact h1.2.1 (by decide) (by decide)
  · exact h2.2.2.1 (by decide) (by decide) (by decide)
  · exact (h1.2.2.2 rfl).1

/-- C8: partial-failure semantics of the attachment download loop.  (a) The
successes are exactly the attachments whose fetch succeeded, in their
original relative order (witnessed by their recorded original filenames);
(b) the failures are exactly the attachments whose fetch failed, in their
original relative order — so one failing attachment never aborts the rest,
and both lists are returned together. -/
theorem claim_C8_partial_failure (fetch : AttachmentInfo → Except String String)
    (quote : String → String) (serverPort : Nat)
    (atts : List AttachmentInfo) (dirFiles : List String) :
    (download_attachments_loop fetch quote serverPort atts dirFiles).1.map
        (fun d => d.original_filename) =
      atts.filterMap (fun a =>
        match fetch a with
        | .ok _ => some a.filename
        | .error _ => none) ∧
    (download_attachments_loop fetch quote serverPort atts dirFiles).2.1.map
        (fun f => f.filename) =
      atts.filterMap (fun a =>
        match fetch a with
        | .ok _ => none
        | .error _ => some a.filename) := by
  induction atts generalizing dirFiles with
  | nil => exact ⟨rfl, rfl⟩
  | cons a rest ih =>
    cases hf : fetch a with
    | ok fileData =>
      obtain ⟨ih1, ih2⟩ := ih (dirFiles ++ [resolveFilename dirFiles a.filename])
      constructor
      · simp only [download_attachments_loop, hf, List.map_cons, List.filterMap_cons]
        rw [ih1]
      · simp only [download_attachments_loop, hf, List.filterMap_cons]
        rw [ih2]
    | error e =>
      obtain ⟨ih1, ih2⟩ := ih dirFiles
      constructor
      · simp only [download_attachments_loop, hf, List.filterMap_cons]
        rw [ih1]
      · simp only [download_attachments_loop, hf, List.map_cons, List.filterMap_cons]
        rw [ih2]

/-- The spec's concrete C8 scenario, evaluated: three attachments with the
second one failing yield exactly 2 successes and 1 failure, both lists in
original relative order. -/
theorem download_loop_second_fails_scenario :
    (download_attachments_loop
        (fun a => if a.attachment_id == "id2" then .error "HttpError 404"
          else .ok "DATA")
        (fun s => s) 8000
        [⟨"id1", "one.txt", "text/plain", 4⟩,
         ⟨"id2", "two.txt", "text/plain", 4⟩,
         ⟨"id3", "three.txt", "text/plain", 4⟩] []).1.map
      (fun d => d.original_filename) = ["one.txt", "three.txt"] ∧
    (download_attachments_loop
        (fun a => if a.attachment_id == "id2" then .error "HttpError 404"
          else .ok "DATA")
        (fun s => s) 8000
        [⟨"id1", "one.txt", "text/plain", 4⟩,
         ⟨"id2", "two.txt", "text/plain", 4⟩,
         ⟨"id3", "three.txt", "text/plain", 4⟩] []).2.1 =
      [⟨"two.txt", "HttpError 404"⟩] := by
  exact ⟨rfl, rfl⟩

/-! ### Tool-boundary error handling (`delete_event_tool.py` lines 44-114,
`gmail_tool.py` lines 47-111, `search_tool.py` lines 51-76)

A remote `.execute()` call either returns a value, raises `HttpError` (with a
status code), or raises some other exception; `CallResult` records which.  A
tool function either returns its result dict (`.ok`) or lets an exception
escape to the caller (`.error`). -/

/-- Outcome of one remote API call. -/
inductive CallResult (α : Type) where
  | ok (val : α)
  | httpError (status : Nat) (msg : String)
  | exn (msg : String)
  deriving Repr

/-- The dict `delete_event` returns: `status`, `message`, optional
`details` (absent on success) and the echoed `event_id`. -/
structure ToolResult where
  status : String
  message : String
  details : Option String
  event_id : String
  deriving Repr, DecidableEq

/-- `delete_event` (`delete_event_tool.py` lines 44-114): the whole body is
inside `try`; `HttpError` 404 and 410 get dedicated error dicts, other
`HttpError`s a generic one, and any other exception the catch-all dict — the
function always returns a dict. -/
def delete_event (event_id : String) (remoteDelete : CallResult Unit) :
    Except String ToolResult :=
  match remoteDelete with
  | .ok _ =>
    .ok ⟨"success", "Event deleted successfully", none, event_id⟩
  | .httpError status m =>
    if status = 404 then
      .ok ⟨"error", "Event not found",
        some ("No event with ID '" ++ event_id ++ "' exists in the calendar"),
        event_id⟩
    else if status = 410 then
      .ok ⟨"error", "Event already deleted",
        some ("Event with ID '" ++ event_id ++ "' was already deleted"),
        event_id⟩
    else
      .ok ⟨"error", "Failed to delete event", some m, event_id⟩
  | .exn m =>
    .ok ⟨"error", "An unexpected error occurred", some m, event_id⟩

/-- A fetched Gmail message: its id, payload headers, and payload part tree. -/
structure GmailMessage where
  id : String
  headers : List (String × String)
  payload : MessagePart

/-- `next((h['value'] for h in headers if h['name'].lower() == nm), deflt)`. -/
def headerValue (headers : List (String × String)) (nm deflt : String) : String :=
  match headers.find? (fun h => h.1.toLower == nm) with
  | some h => h.2
  | none => deflt

/-- One entry of the `emails` list built by `get_latest_emails`
(lines 99-106). -/
structure EmailSummary where
  id : String
  date : String
  fromAddr : String
  toAddr : String
  subject : String
  body : String
  deriving Repr

/-- The dict `get_latest_emails` returns on its normal paths. -/
inductive GmailOutcome where
  | status (msg : String)
  | emails (count : Nat) (entries : List EmailSummary)
  deriving Repr

/-- The per-message loop of `get_latest_emails` (lines 67-106): each
`messages().get(...).execute()` runs OUTSIDE any `try`, so a failure
escapes the function. -/
def fetchEmails (getMsg : String → CallResult GmailMessage)
    (htmlToText : String → String) :
    List String → Except String (List EmailSummary)
  | [] => .ok []
  | mid :: rest =>
    match getMsg mid with
    | .ok msg =>
      (match fetchEmails getMsg htmlToText rest with
       | .ok es =>
         .ok (⟨mid,
            headerValue msg.headers "date" "(Unknown Date)",
            headerValue msg.headers "from" "(Unknown Sender)",
            headerValue msg.headers "to" "(Unknown Recipient)",
            headerValue msg.headers "subject" "(No Subject)",
            (if email_body_of htmlToText msg.payload ≠ "" then
              email_body_of htmlToText msg.payload
            else "No message body found.")⟩ :: es)
       | .error e => .error e)
    | .httpError s m => .error ("HttpError " ++ toString s ++ ": " ++ m)
    | .exn m => .error m

/-- `get_latest_emails` (`gmail_tool.py` lines 47-111).  NO `try/except`
anywhere in the function: a failure of the initial `messages().list(...)`
call — or of any per-message get — propagates out as an unhandled
exception (`.error`). -/
def get_latest_emails (listResult : CallResult (List String))
    (getMsg : String → CallResult GmailMessage)
    (htmlToText : String → String) : Except String GmailOutcome :=
  match listResult with
  | .httpError s m => .error ("HttpError " ++ toString s ++ ": " ++ m)
  | .exn m => .error m
  | .ok ids =>
    if ids.isEmpty then .ok (.status "No emails found.")
    else
      match fetchEmails getMsg htmlToText ids with
      | .ok es => .ok (.emails es.length es)
      | .error e => .error e

/-- C3 counterexample: `get_latest_emails` hit by an `HttpError` on its
`messages().list(...).execute()` call propagates the exception out of the
tool function instead of returning a structured error result — so "no
remote-call failure ever propagates out of a tool function" is false. -/
theorem claim_C3_counterexample :
    get_latest_emails (.httpError 500 "Backend Error")
        (fun _ => .exn "unreachable") (fun s => s) =
      .error "HttpError 500: Backend Error" ∧
    exceptOk (get_latest_emails (.httpError 500 "Backend Error")
        (fun _ => .exn "unreachable") (fun s => s)) = false := by
  exact ⟨rfl, rfl⟩

/-- C3 (amended): tools such as `delete_event`, whose bodies are wrapped in
`try/except HttpError/except Exception`, convert EVERY remote-call failure
into a structured result — always a returned dict, tagged `success` or
`error`, with a non-empty human-readable message and the echoed identifier.
But `get_latest_emails` (and likewise `search_emails`) performs its remote
calls outside any handler, so both an `HttpError` on the list call and a
failure on a per-message get propagate out of the tool function as unhandled
exceptions. -/
theorem claim_C3_amended (event_id : String) (remote : CallResult Unit)
    (s : Nat) (m : String) (ids : List String)
    (getMsg : String → CallResult GmailMessage) (htmlToText : String → String) :
    (∃ r : ToolResult, delete_event event_id remote = .ok r ∧
      r.event_id = event_id ∧ r.message ≠ "" ∧
      (r.status = "success" ∨ r.status = "error")) ∧
    (get_latest_emails (.httpError s m) getMsg htmlToText =
      .error ("HttpError " ++ toString s ++ ": " ++ m)) ∧
    (ids ≠ [] → (∀ mid, getMsg mid = .exn m) →
      get_latest_emails (.ok ids) getMsg htmlToText = .error m) := by
  refine ⟨?_, rfl, ?_⟩
  · match remote with
    | .ok _ => exact ⟨_, rfl, rfl, by simp, Or.inl rfl⟩
    | .exn m2 => exact ⟨_, rfl, rfl, by simp, Or.inr rfl⟩
    | .httpError s2 m2 =>
      by_cases h4 : s2 = 404
      · subst h4
        exact ⟨_, rfl, rfl, by simp, Or.inr rfl⟩
      · by_cases h10 : s2 = 410
        · subst h10
          exact ⟨_, rfl, rfl, by simp, Or.inr rfl⟩
        · refine ⟨⟨"error", "Failed to delete event", some m2, event_id⟩,
            ?_, rfl, by simp, Or.inr rfl⟩
          simp [delete_event, h4, h10]
  · intro hne hall
    match ids, hne with
    | mid :: rest, _ =>
      simp only [get_latest_emails, List.isEmpty_cons, Bool.false_eq_true,
        if_false]
      simp only [fetchEmails, hall mid]

/-- Witness for C3 (amended) at concrete inputs: a failing per-message get
propagates out of `get_latest_emails`, while `delete_event` under the same
kind of failure still returns a structured error dict. -/
theorem claim_C3_witness :
    get_latest_emails (.ok ["m1"]) (fun _ => .exn "boom") (fun s => s) =
      .error "boom" ∧
    delete_event "ev1" (.exn "boom") =
      .ok ⟨"error", "An unexpected error occurred", some "boom", "ev1"⟩ := by
  have h := claim_C3_amended "ev1" (.exn "boom") 500 "boom" ["m1"]
    (fun _ => .exn "boom") (fun s => s)
  exact ⟨h.2.2 (by simp) (fun _ => rfl), rfl⟩

end GoogleTools
